import Mathlib

/-!
Verification of the notes service in src/notes_backend/src/api/main.py.

The service is a CRUD layer over a single SQLite table
  notes(id INTEGER PRIMARY KEY AUTOINCREMENT, title, content, created_at, updated_at).
We embed the table as a list of rows plus the AUTOINCREMENT counter (the
largest id ever assigned), timestamps as natural numbers, and each handler
as a pure function taking the current time explicitly where the SQL uses
CURRENT_TIMESTAMP.  Pydantic payload validation (title length 1..200,
content length at least 1, both optional in updates) runs before the
handler body, exactly as FastAPI does.
-/

namespace NotesApp

/-- A persisted row of the notes table (model Note in main.py). -/
structure Note where
  id : Nat
  title : String
  content : String
  created_at : Nat
  updated_at : Nat
deriving Repr, DecidableEq

/-- Payload of POST /notes (model NoteCreate in main.py). -/
structure NoteCreate where
  title : String
  content : String
deriving Repr, DecidableEq

/-- Payload of PUT /notes/id (model NoteUpdate in main.py); both fields optional. -/
structure NoteUpdate where
  title : Option String
  content : Option String
deriving Repr, DecidableEq

/-- Pydantic constraint on title: min_length 1, max_length 200. -/
def validTitle (t : String) : Bool :=
  decide (1 ≤ t.length) && decide (t.length ≤ 200)

/-- Pydantic constraint on content: min_length 1. -/
def validContent (c : String) : Bool :=
  decide (1 ≤ c.length)

/-- Validation of a NoteCreate payload (both fields required and constrained). -/
def NoteCreate.valid (p : NoteCreate) : Bool :=
  validTitle p.title && validContent p.content

/-- Validation of a NoteUpdate payload: each field, when present, is constrained. -/
def NoteUpdate.valid (p : NoteUpdate) : Bool :=
  p.title.all validTitle && p.content.all validContent

/-- The notes table: rows plus the AUTOINCREMENT counter
(the largest id ever handed out). -/
structure DB where
  rows : List Note
  seq : Nat
deriving Repr, DecidableEq

/-- The freshly created table (after _ensure_schema on an empty database). -/
def DB.empty : DB := ⟨[], 0⟩

/-- HTTP error outcomes of the handlers. -/
inductive ApiError where
  /-- Status 422: pydantic / query validation failure. -/
  | validationFailure
  /-- Status 400: raised for an update carrying no fields. -/
  | badRequest
  /-- Status 404: raised when no row matches the id. -/
  | notFound
deriving Repr, DecidableEq

/-- SELECT ... FROM notes WHERE id = ?  (first matching row, if any). -/
def lookup (db : DB) (note_id : Nat) : Option Note :=
  db.rows.find? (fun n => n.id == note_id)

/-- Handler get_note: 404 when the id is absent, otherwise the row. -/
def get_note (db : DB) (note_id : Nat) : Except ApiError Note :=
  match lookup db note_id with
  | none => .error .notFound
  | some n => .ok n

/-- Handler create_note: validate, INSERT with both timestamps defaulted to
CURRENT_TIMESTAMP in the one statement, then re-SELECT by lastrowid.
AUTOINCREMENT hands out one more than the largest id ever assigned. -/
def create_note (db : DB) (payload : NoteCreate) (now : Nat) :
    Except ApiError (Note × DB) :=
  if payload.valid then
    let note : Note :=
      { id := db.seq + 1, title := payload.title, content := payload.content,
        created_at := now, updated_at := now }
    .ok (note, ⟨db.rows ++ [note], db.seq + 1⟩)
  else
    .error .validationFailure

/-- Effect of the UPDATE statement on one row:
COALESCE(?, title), COALESCE(?, content), updated_at = CURRENT_TIMESTAMP. -/
def applyUpdate (payload : NoteUpdate) (now : Nat) (n : Note) : Note :=
  { n with
    title := payload.title.getD n.title,
    content := payload.content.getD n.content,
    updated_at := now }

/-- Handler update_note: pydantic validation, then the empty-payload check
(400), then the existence check (404), then UPDATE ... WHERE id = ? and a
re-SELECT of the row. -/
def update_note (db : DB) (note_id : Nat) (payload : NoteUpdate) (now : Nat) :
    Except ApiError (Note × DB) :=
  if !payload.valid then
    .error .validationFailure
  else if payload.title.isNone && payload.content.isNone then
    .error .badRequest
  else
    match lookup db note_id with
    | none => .error .notFound
    | some old =>
        let rows := db.rows.map
          (fun n => if n.id == note_id then applyUpdate payload now n else n)
        .ok (applyUpdate payload now old, ⟨rows, db.seq⟩)

/-- Handler delete_note: DELETE ... WHERE id = ?; rowcount 0 reported as 404. -/
def delete_note (db : DB) (note_id : Nat) : Except ApiError DB :=
  let rows := db.rows.filter (fun n => !(n.id == note_id))
  if rows.length == db.rows.length then
    .error .notFound
  else
    .ok ⟨rows, db.seq⟩

/-- The ORDER BY clause: updated_at descending, ties broken by id descending. -/
def listOrd (a b : Note) : Prop :=
  b.updated_at < a.updated_at ∨ (a.updated_at = b.updated_at ∧ b.id ≤ a.id)

instance listOrd.decidableRel : DecidableRel listOrd := fun a b => by
  unfold listOrd
  exact inferInstance

/-- SELECT ... ORDER BY datetime(updated_at) DESC, id DESC. -/
def sortNotes (l : List Note) : List Note :=
  List.insertionSort listOrd l

/-- Handler list_notes: query validation (limit in 1..500, offset nonnegative),
then the ordered SELECT with LIMIT ? OFFSET ?. -/
def list_notes (db : DB) (limit offset : Int) : Except ApiError (List Note) :=
  if limit < 1 ∨ 500 < limit ∨ offset < 0 then
    .error .validationFailure
  else
    .ok (((sortNotes db.rows).drop offset.toNat).take limit.toNat)

/-- Tables reachable from the empty table by the three mutating handlers. -/
inductive Reachable : DB → Prop where
  | empty : Reachable DB.empty
  | create {db : DB} {p : NoteCreate} {now : Nat} {note : Note} {db' : DB} :
      Reachable db → create_note db p now = .ok (note, db') → Reachable db'
  | update {db : DB} {note_id : Nat} {p : NoteUpdate} {now : Nat} {note : Note} {db' : DB} :
      Reachable db → update_note db note_id p now = .ok (note, db') → Reachable db'
  | delete {db : DB} {note_id : Nat} {db' : DB} :
      Reachable db → delete_note db note_id = .ok db' → Reachable db'

/-- Reachability with a monotone wall clock: ReachableAt db t means db arises
from the empty table by handler calls whose CURRENT_TIMESTAMP readings never
decrease, the latest reading being at most t. -/
inductive ReachableAt : DB → Nat → Prop where
  | empty : ReachableAt DB.empty 0
  | create {db : DB} {t now : Nat} {p : NoteCreate} {note : Note} {db' : DB} :
      ReachableAt db t → t ≤ now → create_note db p now = .ok (note, db') →
      ReachableAt db' now
  | update {db : DB} {t now : Nat} {note_id : Nat} {p : NoteUpdate} {note : Note} {db' : DB} :
      ReachableAt db t → t ≤ now → update_note db note_id p now = .ok (note, db') →
      ReachableAt db' now
  | delete {db : DB} {t : Nat} {note_id : Nat} {db' : DB} :
      ReachableAt db t → delete_note db note_id = .ok db' → ReachableAt db' t

/-- Structural invariant of the table: every row id lies in 1..seq and
the ids are pairwise distinct. -/
def DB.WF (db : DB) : Prop :=
  (∀ n ∈ db.rows, 1 ≤ n.id ∧ n.id ≤ db.seq) ∧ (db.rows.map Note.id).Nodup

/-! ### Inversion lemmas for the handlers -/

/-- Inversion of a successful create: validation passed, the new row carries
the next id with both timestamps equal to now, and it is appended. -/
theorem create_note_ok {db : DB} {p : NoteCreate} {now : Nat} {note : Note} {db' : DB}
    (h : create_note db p now = .ok (note, db')) :
    p.valid = true ∧
    note = { id := db.seq + 1, title := p.title, content := p.content,
             created_at := now, updated_at := now } ∧
    db' = ⟨db.rows ++ [note], db.seq + 1⟩ := by
  unfold create_note at h
  split at h
  next hv =>
    simp only [Except.ok.injEq, Prod.mk.injEq] at h
    obtain ⟨h1, h2⟩ := h
    subst h1
    exact ⟨hv, rfl, h2.symm⟩
  next hv => exact Except.noConfusion h

/-- Inversion of a successful update: validation passed, at least one field
was supplied, the id was found, the found row is updated in place and
returned. -/
theorem update_note_ok {db : DB} {note_id : Nat} {p : NoteUpdate} {now : Nat}
    {note : Note} {db' : DB}
    (h : update_note db note_id p now = .ok (note, db')) :
    ∃ old, p.valid = true ∧ (p.title.isSome = true ∨ p.content.isSome = true) ∧
      lookup db note_id = some old ∧ old.id = note_id ∧
      note = applyUpdate p now old ∧
      db' = ⟨db.rows.map (fun n => if n.id == note_id then applyUpdate p now n else n),
             db.seq⟩ := by
  unfold update_note at h
  split at h
  next => exact Except.noConfusion h
  next hv =>
    split at h
    next => exact Except.noConfusion h
    next hfields =>
      split at h
      next => exact Except.noConfusion h
      next old hl =>
        simp only [Except.ok.injEq, Prod.mk.injEq] at h
        obtain ⟨h1, h2⟩ := h
        refine ⟨old, ?_, ?_, hl, ?_, h1.symm, h2.symm⟩
        · simpa using hv
        · cases ht : p.title with
          | some _ => exact Or.inl (by simp [ht])
          | none =>
            cases hc : p.content with
            | some _ => exact Or.inr (by simp [hc])
            | none => exact absurd (by simp [ht, hc]) hfields
        · have hp := List.find?_some hl
          simpa using hp

/-- Inversion of a successful delete: the surviving rows are exactly those
with a different id, and the sequence counter is unchanged. -/
theorem delete_note_ok {db : DB} {note_id : Nat} {db' : DB}
    (h : delete_note db note_id = .ok db') :
    db' = ⟨db.rows.filter (fun n => !(n.id == note_id)), db.seq⟩ := by
  simp only [delete_note] at h
  split at h
  next => exact Except.noConfusion h
  next => simpa using h.symm

/-! ### Helper lemmas about id-preserving row transformations -/

/-- The UPDATE statement never touches the id column. -/
theorem applyUpdate_id (p : NoteUpdate) (now : Nat) (n : Note) :
    (applyUpdate p now n).id = n.id := rfl

/-- The per-row effect of UPDATE ... WHERE id = ? preserves every id. -/
theorem updRow_id (p : NoteUpdate) (now : Nat) (note_id : Nat) (n : Note) :
    (if n.id == note_id then applyUpdate p now n else n).id = n.id := by
  split <;> rfl

/-- Mapping an id-preserving function over the rows leaves the id column
unchanged. -/
theorem map_id_of_preserving (g : Note → Note) (hg : ∀ n, (g n).id = n.id) :
    ∀ l : List Note, (l.map g).map Note.id = l.map Note.id
  | [] => rfl
  | n :: l => by
    simp only [List.map_cons, hg n, map_id_of_preserving g hg l]

/-- WHERE id = ? commutes with an id-preserving row transformation. -/
theorem find?_map_of_preserving (g : Note → Note) (hg : ∀ n, (g n).id = n.id) (m : Nat) :
    ∀ l : List Note,
      (l.map g).find? (fun n => n.id == m) = (l.find? (fun n => n.id == m)).map g
  | [] => rfl
  | n :: l => by
    by_cases hn : (n.id == m) = true
    · rw [List.map_cons,
        List.find?_cons_of_pos (p := fun x : Note => x.id == m) _ (by simpa [hg n] using hn),
        List.find?_cons_of_pos (p := fun x : Note => x.id == m) _ hn]
      simp
    · rw [List.map_cons,
        List.find?_cons_of_neg (p := fun x : Note => x.id == m) _ (by simpa [hg n] using hn),
        List.find?_cons_of_neg (p := fun x : Note => x.id == m) _ hn,
        find?_map_of_preserving g hg m l]

/-! ### Preservation of the structural invariant -/

/-- Every table reachable from the empty one is well formed: ids lie in
1..seq and are pairwise distinct. -/
theorem reachable_wf {db : DB} (h : Reachable db) : db.WF := by
  induction h with
  | empty => exact ⟨fun n hn => absurd hn (List.not_mem_nil n), List.nodup_nil⟩
  | @create db1 p1 now1 note1 db2 hr hok ih =>
    obtain ⟨-, hnote, hdb⟩ := create_note_ok hok
    obtain ⟨ihb, ihn⟩ := ih
    subst hdb
    constructor
    · intro n hn
      rcases List.mem_append.mp hn with hn | hn
      · obtain ⟨h1, h2⟩ := ihb n hn
        exact ⟨h1, Nat.le_succ_of_le h2⟩
      · rw [List.mem_singleton.mp hn, hnote]
        exact ⟨Nat.succ_le_succ (Nat.zero_le _), Nat.le_refl _⟩
    · rw [List.map_append]
      refine List.Nodup.append ihn (List.nodup_singleton _) ?_
      intro x hx hx'
      obtain ⟨n, hn, hnid⟩ := List.mem_map.mp hx
      obtain ⟨-, h2⟩ := ihb n hn
      rw [List.mem_map] at hx'
      obtain ⟨m, hm, hmid⟩ := hx'
      have hx1 : x = db1.seq + 1 := by
        rw [← hmid, List.mem_singleton.mp hm, hnote]
      omega
  | update hr hok ih =>
    obtain ⟨old, -, -, -, -, -, hdb⟩ := update_note_ok hok
    obtain ⟨ihb, ihn⟩ := ih
    subst hdb
    constructor
    · intro n hn
      obtain ⟨m, hm, hmn⟩ := List.mem_map.mp hn
      have : n.id = m.id := by rw [← hmn, updRow_id]
      rw [this]
      exact ihb m hm
    · rw [map_id_of_preserving _ (fun n => updRow_id _ _ _ n)]
      exact ihn
  | delete hr hok ih =>
    have hdb := delete_note_ok hok
    obtain ⟨ihb, ihn⟩ := ih
    subst hdb
    constructor
    · intro n hn
      exact ihb n (List.mem_filter.mp hn).1
    · exact ihn.sublist (List.Sublist.map Note.id (List.filter_sublist _))

/-- Every reachable row passes the pydantic field constraints: title length
in 1..200 and content length at least 1. -/
theorem reachable_valid_rows {db : DB} (h : Reachable db) :
    ∀ n ∈ db.rows, validTitle n.title = true ∧ validContent n.content = true := by
  induction h with
  | empty => intro n hn; exact absurd hn (List.not_mem_nil n)
  | @create db1 p1 now1 note1 db2 hr hok ih =>
    obtain ⟨hv, hnote, hdb⟩ := create_note_ok hok
    subst hdb
    intro n hn
    rcases List.mem_append.mp hn with hn | hn
    · exact ih n hn
    · rw [List.mem_singleton.mp hn, hnote]
      unfold NoteCreate.valid at hv
      rw [Bool.and_eq_true] at hv
      exact ⟨hv.1, hv.2⟩
  | @update db1 note_id p1 now1 note1 db2 hr hok ih =>
    obtain ⟨old, hv, -, -, -, -, hdb⟩ := update_note_ok hok
    subst hdb
    intro n hn
    obtain ⟨m, hm, hmn⟩ := List.mem_map.mp hn
    subst hmn
    unfold NoteUpdate.valid at hv
    rw [Bool.and_eq_true] at hv
    obtain ⟨hvt, hvc⟩ := hv
    obtain ⟨iht, ihc⟩ := ih m hm
    by_cases hid : (m.id == note_id) = true
    · rw [if_pos hid]
      constructor
      · cases ht : p1.title with
        | none => simpa [applyUpdate, ht] using iht
        | some t =>
          rw [ht] at hvt
          simpa [applyUpdate, ht] using hvt
      · cases hc : p1.content with
        | none => simpa [applyUpdate, hc] using ihc
        | some c =>
          rw [hc] at hvc
          simpa [applyUpdate, hc] using hvc
    · rw [if_neg hid]
      exact ⟨iht, ihc⟩
  | @delete db1 note_id db2 hr hok ih =>
    have hdb := delete_note_ok hok
    subst hdb
    intro n hn
    exact ih n (List.mem_filter.mp hn).1

/-- Under a monotone clock every reachable row satisfies
created_at ≤ updated_at, and updated_at never exceeds the latest clock
reading. -/
theorem reachableAt_bound {db : DB} {t : Nat} (h : ReachableAt db t) :
    ∀ n ∈ db.rows, n.created_at ≤ n.updated_at ∧ n.updated_at ≤ t := by
  induction h with
  | empty => intro n hn; exact absurd hn (List.not_mem_nil n)
  | @create db1 t1 now1 p1 note1 db2 hr hle hok ih =>
    obtain ⟨-, hnote, hdb⟩ := create_note_ok hok
    subst hdb
    intro n hn
    rcases List.mem_append.mp hn with hn | hn
    · obtain ⟨h1, h2⟩ := ih n hn
      exact ⟨h1, le_trans h2 hle⟩
    · rw [List.mem_singleton.mp hn, hnote]
      exact ⟨le_refl _, le_refl _⟩
  | @update db1 t1 now1 note_id p1 note1 db2 hr hle hok ih =>
    obtain ⟨old, -, -, -, -, -, hdb⟩ := update_note_ok hok
    subst hdb
    intro n hn
    obtain ⟨m, hm, hmn⟩ := List.mem_map.mp hn
    subst hmn
    obtain ⟨h1, h2⟩ := ih m hm
    by_cases hid : (m.id == note_id) = true
    · rw [if_pos hid]
      exact ⟨le_trans h1 (le_trans h2 hle), le_refl _⟩
    · rw [if_neg hid]
      exact ⟨h1, le_trans h2 hle⟩
  | @delete db1 t1 note_id db2 hr hok ih =>
    have hdb := delete_note_ok hok
    subst hdb
    intro n hn
    exact ih n (List.mem_filter.mp hn).1

/-! ### The ORDER BY relation is a total preorder -/

instance listOrd.total : IsTotal Note listOrd :=
  ⟨by intro a b; unfold listOrd; omega⟩

instance listOrd.transitive : IsTrans Note listOrd :=
  ⟨by intro a b c hab hbc; unfold listOrd at *; omega⟩

/-! ### Further shared helpers -/

/-- DELETE on an absent id removes nothing, so rowcount 0 is reported as 404. -/
theorem delete_absent {db : DB} {note_id : Nat}
    (habs : lookup db note_id = none) :
    delete_note db note_id = .error .notFound := by
  have hfilt : db.rows.filter (fun n => !(n.id == note_id)) = db.rows := by
    rw [List.filter_eq_self]
    intro n hn
    have hp := List.find?_eq_none.mp habs n hn
    simpa using hp
  unfold delete_note
  rw [hfilt]
  simp

/-- After a successful delete the id no longer matches any row. -/
theorem lookup_after_delete {db : DB} {note_id : Nat} {db' : DB}
    (h : delete_note db note_id = .ok db') :
    lookup db' note_id = none := by
  rw [delete_note_ok h]
  unfold lookup
  rw [List.find?_eq_none]
  intro n hn
  have hp := (List.mem_filter.mp hn).2
  simpa using hp

/-- Characterisation of a successful update as an explicit equation. -/
theorem update_note_eq_ok {db : DB} {note_id : Nat} {p : NoteUpdate} {now : Nat} {old : Note}
    (hfound : lookup db note_id = some old)
    (hvalid : p.valid = true)
    (hsome : p.title.isSome = true ∨ p.content.isSome = true) :
    update_note db note_id p now =
      .ok (applyUpdate p now old,
        ⟨db.rows.map (fun n => if n.id == note_id then applyUpdate p now n else n),
         db.seq⟩) := by
  have hn2 : (p.title.isNone && p.content.isNone) = false := by
    cases ht : p.title <;> cases hc : p.content <;> simp_all
  simp [update_note, hvalid, hn2, hfound]

/-- After a successful update the id maps to the returned row. -/
theorem lookup_after_update {db : DB} {note_id : Nat} {p : NoteUpdate} {now : Nat}
    {note : Note} {db' : DB}
    (h : update_note db note_id p now = .ok (note, db')) :
    lookup db' note_id = some note := by
  obtain ⟨old, -, -, hl, hoid, hnote, hdb⟩ := update_note_ok h
  subst hdb
  subst hnote
  unfold lookup
  rw [find?_map_of_preserving _ (updRow_id p now note_id) note_id]
  show Option.map _ (lookup db note_id) = _
  rw [hl]
  simp [hoid]

/-- After a successful create the fresh id maps to the returned row. -/
theorem lookup_after_create {db : DB} {p : NoteCreate} {now : Nat}
    {note : Note} {db' : DB}
    (hwf : db.WF) (h : create_note db p now = .ok (note, db')) :
    lookup db' note.id = some note := by
  obtain ⟨-, hnote, hdb⟩ := create_note_ok h
  subst hdb
  unfold lookup
  rw [List.find?_append]
  have h1 : db.rows.find? (fun n => n.id == note.id) = none := by
    rw [List.find?_eq_none]
    intro n hn
    have hb := (hwf.1 n hn).2
    have : note.id = db.seq + 1 := by rw [hnote]
    simp only [beq_iff_eq, this]
    omega
  rw [h1]
  simp

/-- The row built by a successful INSERT: fresh id, payload fields, both
timestamps at the same instant. -/
def mkNote (seq : Nat) (p : NoteCreate) (now : Nat) : Note :=
  { id := seq + 1, title := p.title, content := p.content,
    created_at := now, updated_at := now }

/-! ### Claim theorems -/

/-- Claim C5: Get, Update (with at least one valid field supplied) and
Delete on an absent id all fail with 404 Not Found; after a successful
Delete, a Get of the same id yields 404 and a second Delete yields 404. -/
theorem missing_id_not_found (db : DB) (note_id : Nat) (p : NoteUpdate) (now : Nat)
    (habs : lookup db note_id = none)
    (hvalid : p.valid = true)
    (hsome : p.title.isSome = true ∨ p.content.isSome = true) :
    get_note db note_id = .error .notFound ∧
    update_note db note_id p now = .error .notFound ∧
    delete_note db note_id = .error .notFound ∧
    (∀ db0 db' : DB, delete_note db0 note_id = .ok db' →
       get_note db' note_id = .error .notFound ∧
       delete_note db' note_id = .error .notFound) := by
  refine ⟨?_, ?_, delete_absent habs, ?_⟩
  · unfold get_note
    rw [habs]
  · have hn2 : (p.title.isNone && p.content.isNone) = false := by
      cases ht : p.title <;> cases hc : p.content <;> simp_all
    simp [update_note, hvalid, hn2, habs]
  · intro db0 db' hdel
    have habs' := lookup_after_delete hdel
    constructor
    · unfold get_note
      rw [habs']
    · exact delete_absent habs'

/-- Claim C6: a PUT whose payload supplies neither title nor content fails
with 400 Bad Request; the failure is raised before any SQL statement runs,
so no stored note is modified (no successor state is produced). -/
theorem empty_update_bad_request (db : DB) (note_id : Nat) (now : Nat) :
    update_note db note_id ⟨none, none⟩ now = .error .badRequest := rfl

/-- Claim C10: the empty-payload check precedes the existence check, so a
PUT with an empty payload yields 400 rather than 404 even when the id is
absent from the table. -/
theorem empty_update_precedes_not_found (db : DB) (note_id : Nat) (now : Nat)
    (habs : lookup db note_id = none) :
    update_note db note_id ⟨none, none⟩ now = .error .badRequest := rfl

/-- Claim C1: updating an existing note with a valid payload supplying a
subset of the two fields changes exactly the supplied fields, keeps every
omitted field and created_at at their prior values, sets updated_at to the
current time (hence not below the prior updated_at when the clock has not
gone back), stores the result under the same id, and leaves every other id
untouched. -/
theorem update_only_supplied_fields (db : DB) (note_id : Nat) (p : NoteUpdate)
    (now : Nat) (old : Note)
    (hfound : lookup db note_id = some old)
    (hvalid : p.valid = true)
    (hsome : p.title.isSome = true ∨ p.content.isSome = true) :
    ∃ note db',
      update_note db note_id p now = .ok (note, db') ∧
      note.title = p.title.getD old.title ∧
      note.content = p.content.getD old.content ∧
      note.created_at = old.created_at ∧
      note.updated_at = now ∧
      (p.title = none → note.title = old.title) ∧
      (p.content = none → note.content = old.content) ∧
      (old.updated_at ≤ now → old.updated_at ≤ note.updated_at) ∧
      lookup db' note_id = some note ∧
      (∀ m, m ≠ note_id → lookup db' m = lookup db m) := by
  have heq := @update_note_eq_ok db note_id p now old hfound hvalid hsome
  refine ⟨applyUpdate p now old,
    ⟨db.rows.map (fun n => if n.id == note_id then applyUpdate p now n else n), db.seq⟩,
    heq, rfl, rfl, rfl, rfl, ?_, ?_, ?_, lookup_after_update heq, ?_⟩
  · intro ht
    simp [applyUpdate, ht]
  · intro hc
    simp [applyUpdate, hc]
  · intro hle
    exact hle
  · intro m hm
    unfold lookup
    rw [find?_map_of_preserving _ (updRow_id p now note_id) m]
    cases hx : db.rows.find? (fun n => n.id == m) with
    | none => rfl
    | some x =>
      have hxid : x.id = m := by simpa using List.find?_some hx
      have hxne : (x.id == note_id) = false := by
        simp [hxid, hm]
      simp [hxne]
      intro hxeq
      exact absurd hxeq (by simpa using hxne)

/-- Claim C3: creating a note from a valid payload on a well formed table
assigns the fresh id seq + 1 (positive and distinct from every stored id),
persists the row with the given title and content and both timestamps set
to the same current instant, and the full created note is retrievable. -/
theorem create_assigns_fresh_id (db : DB) (p : NoteCreate) (now : Nat)
    (hvalid : p.valid = true) (hwf : db.WF) :
    ∃ note db',
      create_note db p now = .ok (note, db') ∧
      1 ≤ note.id ∧
      (∀ n ∈ db.rows, n.id ≠ note.id) ∧
      note.title = p.title ∧
      note.content = p.content ∧
      note.created_at = now ∧
      note.updated_at = now ∧
      note.created_at = note.updated_at ∧
      db'.rows = db.rows ++ [note] ∧
      lookup db' note.id = some note := by
  have heq : create_note db p now =
      .ok (mkNote db.seq p now, ⟨db.rows ++ [mkNote db.seq p now], db.seq + 1⟩) := by
    simp [create_note, mkNote, hvalid]
  refine ⟨_, _, heq, ?_, ?_, rfl, rfl, rfl, rfl, rfl, rfl, lookup_after_create hwf heq⟩
  · exact Nat.succ_le_succ (Nat.zero_le _)
  · intro n hn
    have hb := (hwf.1 n hn).2
    show n.id ≠ db.seq + 1
    omega

/-- Claim C4: read after write: a Get on the id just written returns
exactly the note returned by the successful Create or Update that wrote
it. -/
theorem get_returns_last_write :
    (∀ (db : DB) (p : NoteCreate) (now : Nat) (note : Note) (db' : DB),
       db.WF → create_note db p now = .ok (note, db') →
       get_note db' note.id = .ok note) ∧
    (∀ (db : DB) (note_id : Nat) (p : NoteUpdate) (now : Nat) (note : Note) (db' : DB),
       update_note db note_id p now = .ok (note, db') →
       get_note db' note_id = .ok note) := by
  constructor
  · intro db p now note db' hwf h
    unfold get_note
    rw [lookup_after_create hwf h]
  · intro db note_id p now note db' h
    unfold get_note
    rw [lookup_after_update h]

/-- Claim C2: for every table state and every valid limit/offset pair, List
succeeds and returns a limit/offset window of a permutation of the rows
arranged by updated_at descending with ties broken by id descending, and
returns the empty sequence when there are no rows. -/
theorem list_notes_sorted_desc (db : DB) (limit offset : Int)
    (h1 : 1 ≤ limit) (h2 : limit ≤ 500) (h3 : 0 ≤ offset) :
    ∃ l s,
      list_notes db limit offset = .ok l ∧
      List.Perm s db.rows ∧
      l = (s.drop offset.toNat).take limit.toNat ∧
      List.Pairwise listOrd l ∧
      l.length ≤ limit.toNat ∧
      (db.rows = [] → l = []) := by
  refine ⟨((sortNotes db.rows).drop offset.toNat).take limit.toNat, sortNotes db.rows,
    ?_, List.perm_insertionSort listOrd db.rows, rfl, ?_, List.length_take_le _ _, ?_⟩
  · unfold list_notes
    rw [if_neg (by omega)]
  · have hs : List.Pairwise listOrd (sortNotes db.rows) :=
      List.sorted_insertionSort listOrd db.rows
    exact hs.sublist ((List.take_sublist _ _).trans (List.drop_sublist _ _))
  · intro hempty
    simp [sortNotes, hempty]

/-- Claim C7: no reachable table holds a note with empty title, empty
content, or a title longer than 200 characters, and any Create or Update
payload carrying an empty title or content is rejected by validation (422)
before any SQL statement runs, leaving the store unchanged. -/
theorem no_empty_fields_persisted (db : DB) (hr : Reachable db) :
    (∀ n ∈ db.rows, n.title ≠ "" ∧ n.content ≠ "" ∧ n.title.length ≤ 200) ∧
    (∀ (p : NoteCreate) (now : Nat), p.title = "" ∨ p.content = "" →
       create_note db p now = .error .validationFailure) ∧
    (∀ (note_id : Nat) (p : NoteUpdate) (now : Nat),
       p.title = some "" ∨ p.content = some "" →
       update_note db note_id p now = .error .validationFailure) := by
  refine ⟨?_, ?_, ?_⟩
  · intro n hn
    obtain ⟨ht, hc⟩ := reachable_valid_rows hr n hn
    unfold validTitle at ht
    unfold validContent at hc
    rw [Bool.and_eq_true, decide_eq_true_iff, decide_eq_true_iff] at ht
    rw [decide_eq_true_iff] at hc
    refine ⟨?_, ?_, ht.2⟩
    · intro he
      rw [he] at ht
      simp at ht
    · intro he
      rw [he] at hc
      simp at hc
  · intro p now hcase
    have hv : p.valid = false := by
      unfold NoteCreate.valid validTitle validContent
      rcases hcase with h | h <;> rw [h] <;> simp
    simp [create_note, hv]
  · intro note_id p now hcase
    have hv : p.valid = false := by
      unfold NoteUpdate.valid validTitle validContent
      rcases hcase with h | h <;> rw [h] <;> simp
    simp [update_note, hv]

/-- Claim C8: under a monotone clock, every persisted note satisfies
created_at ≤ updated_at; Create establishes it by writing the same instant
to both columns, Update rewrites updated_at to the current time without
touching created_at, and Delete only removes rows, never altering a
surviving one. -/
theorem updated_at_ge_created_at (db : DB) (t : Nat) (hr : ReachableAt db t) :
    (∀ n ∈ db.rows, n.created_at ≤ n.updated_at) ∧
    (∀ (p : NoteCreate) (now : Nat) (note : Note) (db' : DB),
       create_note db p now = .ok (note, db') →
       note.created_at = now ∧ note.updated_at = now) ∧
    (∀ (note_id : Nat) (p : NoteUpdate) (now : Nat) (note : Note) (db' : DB) (old : Note),
       lookup db note_id = some old →
       update_note db note_id p now = .ok (note, db') →
       note.created_at = old.created_at ∧ note.updated_at = now) ∧
    (∀ (note_id : Nat) (db' : DB), delete_note db note_id = .ok db' →
       ∀ n ∈ db'.rows, n ∈ db.rows) := by
  refine ⟨fun n hn => (reachableAt_bound hr n hn).1, ?_, ?_, ?_⟩
  · intro p now note db' h
    obtain ⟨-, hnote, -⟩ := create_note_ok h
    rw [hnote]
    exact ⟨rfl, rfl⟩
  · intro note_id p now note db' old hl h
    obtain ⟨old', -, -, hl', -, hnote, -⟩ := update_note_ok h
    rw [hl] at hl'
    obtain rfl : old = old' := Option.some.inj hl'
    rw [hnote]
    exact ⟨rfl, rfl⟩
  · intro note_id db' h n hn
    rw [delete_note_ok h] at hn
    exact (List.mem_filter.mp hn).1

/-- Claim C9: the id column of a reachable table is duplicate free; a
successful Create assigns id seq + 1, strictly greater than every stored
id, and advances the counter; Update rewrites a row in place without
changing any id or the counter; Delete never changes the counter, so a
freed id is never handed out again. -/
theorem id_unique_immutable_monotone (db : DB) (hr : Reachable db) :
    (db.rows.map Note.id).Nodup ∧
    (∀ (p : NoteCreate) (now : Nat) (note : Note) (db' : DB),
       create_note db p now = .ok (note, db') →
       note.id = db.seq + 1 ∧ db'.seq = db.seq + 1 ∧ ∀ n ∈ db.rows, n.id < note.id) ∧
    (∀ (note_id : Nat) (p : NoteUpdate) (now : Nat) (note : Note) (db' : DB),
       update_note db note_id p now = .ok (note, db') →
       db'.rows.map Note.id = db.rows.map Note.id ∧ db'.seq = db.seq) ∧
    (∀ (note_id : Nat) (db' : DB), delete_note db note_id = .ok db' →
       db'.seq = db.seq) := by
  have hwf := reachable_wf hr
  refine ⟨hwf.2, ?_, ?_, ?_⟩
  · intro p now note db' h
    obtain ⟨-, hnote, hdb⟩ := create_note_ok h
    subst hdb
    refine ⟨by rw [hnote], rfl, ?_⟩
    intro n hn
    have hb := (hwf.1 n hn).2
    have hid : note.id = db.seq + 1 := by rw [hnote]
    omega
  · intro note_id p now note db' h
    obtain ⟨old, -, -, -, -, -, hdb⟩ := update_note_ok h
    subst hdb
    exact ⟨map_id_of_preserving _ (updRow_id p now note_id) db.rows, rfl⟩
  · intro note_id db' h
    rw [delete_note_ok h]

/-! ### Concrete sample data and witnesses -/

/-- Sample row: first note created at time 5. -/
def wNote : Note := ⟨1, "A", "B", 5, 5⟩

/-- Sample row: second note created at time 5. -/
def wNoteB : Note := ⟨2, "E", "F", 5, 5⟩

/-- Sample row: the first note after updating only its title at time 7. -/
def wNoteU : Note := ⟨1, "C", "B", 5, 7⟩

/-- Sample row: a third note created at time 9. -/
def wNote3 : Note := ⟨3, "C", "D", 9, 9⟩

/-- Sample table holding the first note. -/
def wDb : DB := ⟨[wNote], 1⟩

/-- Sample table after updating the first note. -/
def wDbU : DB := ⟨[wNoteU], 1⟩

/-- Sample table holding the first two notes. -/
def wDbC : DB := ⟨[wNote, wNoteB], 2⟩

/-- First sample step: creating the first note on the empty table. -/
theorem wStep1 : create_note DB.empty ⟨"A", "B"⟩ 5 = .ok (wNote, wDb) := rfl

/-- Second sample step: creating the second note. -/
theorem wStep2 : create_note wDb ⟨"E", "F"⟩ 5 = .ok (wNoteB, wDbC) := rfl

/-- The two-note sample table is reachable. -/
theorem wReach : Reachable wDbC :=
  Reachable.create (Reachable.create Reachable.empty wStep1) wStep2

/-- The two-note sample table is reachable under a monotone clock. -/
theorem wReachAt : ReachableAt wDbC 5 :=
  ReachableAt.create (ReachableAt.create ReachableAt.empty (by decide) wStep1)
    (by decide) wStep2

/-- The empty table is well formed. -/
theorem wEmpty_wf : DB.empty.WF := reachable_wf Reachable.empty

/-- The two-note sample table is well formed. -/
theorem wDbC_wf : wDbC.WF := reachable_wf wReach

/-- Witness for C1 at a concrete input. -/
theorem update_only_supplied_fields_witness :
    ∃ note db',
      update_note wDb 1 ⟨some "C", none⟩ 7 = .ok (note, db') ∧
      note.title = (some "C").getD wNote.title ∧
      note.content = (none : Option String).getD wNote.content ∧
      note.created_at = wNote.created_at ∧
      note.updated_at = 7 ∧
      (some "C" = (none : Option String) → note.title = wNote.title) ∧
      ((none : Option String) = none → note.content = wNote.content) ∧
      (wNote.updated_at ≤ 7 → wNote.updated_at ≤ note.updated_at) ∧
      lookup db' 1 = some note ∧
      (∀ m, m ≠ 1 → lookup db' m = lookup wDb m) :=
  update_only_supplied_fields wDb 1 ⟨some "C", none⟩ 7 wNote (by decide) (by decide)
    (Or.inl (by decide))

/-- Witness for C2 at a concrete input. -/
theorem list_notes_sorted_desc_witness :
    ∃ l s,
      list_notes wDbC 2 0 = .ok l ∧
      List.Perm s wDbC.rows ∧
      l = (s.drop (0 : Int).toNat).take (2 : Int).toNat ∧
      List.Pairwise listOrd l ∧
      l.length ≤ (2 : Int).toNat ∧
      (wDbC.rows = [] → l = []) :=
  list_notes_sorted_desc wDbC 2 0 (by decide) (by decide) (by decide)

/-- Witness for C3 at a concrete input. -/
theorem create_assigns_fresh_id_witness :
    ∃ note db',
      create_note wDbC ⟨"C", "D"⟩ 9 = .ok (note, db') ∧
      1 ≤ note.id ∧
      (∀ n ∈ wDbC.rows, n.id ≠ note.id) ∧
      note.title = (⟨"C", "D"⟩ : NoteCreate).title ∧
      note.content = (⟨"C", "D"⟩ : NoteCreate).content ∧
      note.created_at = 9 ∧
      note.updated_at = 9 ∧
      note.created_at = note.updated_at ∧
      db'.rows = wDbC.rows ++ [note] ∧
      lookup db' note.id = some note :=
  create_assigns_fresh_id wDbC ⟨"C", "D"⟩ 9 (by decide) wDbC_wf

/-- Witness for C4 at a concrete input. -/
theorem get_returns_last_write_witness :
    get_note wDb wNote.id = .ok wNote ∧ get_note wDbU 1 = .ok wNoteU :=
  ⟨get_returns_last_write.1 DB.empty ⟨"A", "B"⟩ 5 wNote wDb wEmpty_wf wStep1,
   get_returns_last_write.2 wDb 1 ⟨some "C", none⟩ 7 wNoteU wDbU rfl⟩

/-- Witness for C5 at a concrete input. -/
theorem missing_id_not_found_witness :
    get_note DB.empty 2 = .error .notFound ∧
    update_note DB.empty 2 ⟨some "C", none⟩ 3 = .error .notFound ∧
    delete_note DB.empty 2 = .error .notFound ∧
    get_note ⟨[wNote], 2⟩ 2 = .error .notFound ∧
    delete_note ⟨[wNote], 2⟩ 2 = .error .notFound := by
  have h := missing_id_not_found DB.empty 2 ⟨some "C", none⟩ 3 (by decide) (by decide)
    (Or.inl (by decide))
  have h4 := h.2.2.2 wDbC ⟨[wNote], 2⟩ rfl
  exact ⟨h.1, h.2.1, h.2.2.1, h4.1, h4.2⟩

/-- Witness for C7 at a concrete input. -/
theorem no_empty_fields_persisted_witness :
    (wNote.title ≠ "" ∧ wNote.content ≠ "" ∧ wNote.title.length ≤ 200) ∧
    create_note wDbC ⟨"", "D"⟩ 3 = .error .validationFailure ∧
    update_note wDbC 1 ⟨some "", none⟩ 3 = .error .validationFailure := by
  have h := no_empty_fields_persisted wDbC wReach
  exact ⟨h.1 wNote (by decide), h.2.1 ⟨"", "D"⟩ 3 (Or.inl rfl),
    h.2.2 1 ⟨some "", none⟩ 3 (Or.inl rfl)⟩

/-- Witness for C8 at a concrete input. -/
theorem updated_at_ge_created_at_witness :
    wNote.created_at ≤ wNote.updated_at ∧
    (wNote3.created_at = 9 ∧ wNote3.updated_at = 9) ∧
    (wNoteU.created_at = wNote.created_at ∧ wNoteU.updated_at = 7) ∧
    wNote ∈ wDbC.rows := by
  have h := updated_at_ge_created_at wDbC 5 wReachAt
  refine ⟨h.1 wNote (by decide), ?_, ?_, ?_⟩
  · exact h.2.1 ⟨"C", "D"⟩ 9 wNote3 ⟨wDbC.rows ++ [wNote3], 3⟩ rfl
  · exact h.2.2.1 1 ⟨some "C", none⟩ 7 wNoteU ⟨[wNoteU, wNoteB], 2⟩ wNote (by decide) rfl
  · exact (h.2.2.2 2 ⟨[wNote], 2⟩ rfl) wNote (by decide)

/-- Witness for C9 at a concrete input. -/
theorem id_unique_immutable_monotone_witness :
    (wDbC.rows.map Note.id).Nodup ∧
    wNote3.id = wDbC.seq + 1 ∧
    wNote.id < wNote3.id ∧
    (⟨[wNoteU, wNoteB], 2⟩ : DB).rows.map Note.id = wDbC.rows.map Note.id ∧
    (⟨[wNote], 2⟩ : DB).seq = wDbC.seq := by
  have h := id_unique_immutable_monotone wDbC wReach
  have h2 := h.2.1 ⟨"C", "D"⟩ 9 wNote3 ⟨wDbC.rows ++ [wNote3], 3⟩ rfl
  have h3 := h.2.2.1 1 ⟨some "C", none⟩ 7 wNoteU ⟨[wNoteU, wNoteB], 2⟩ rfl
  exact ⟨h.1, h2.1, h2.2.2 wNote (by decide), h3.1, h.2.2.2 2 ⟨[wNote], 2⟩ rfl⟩

/-- Witness for C10 at a concrete input. -/
theorem empty_update_precedes_not_found_witness :
    update_note DB.empty 7 ⟨none, none⟩ 3 = .error .badRequest :=
  empty_update_precedes_not_found DB.empty 7 3 (by decide)

end NotesApp
